import Mathlib

/-!
# Verification of the funnel-graph geometry engine

Shallow embedding of `src/js/main.js` (class `FunnelGraph`) over exact
rational arithmetic.  JavaScript numbers are modelled as `ℚ`; the
degenerate `NaN`/`Infinity` behaviour of the percentage calculator is
modelled separately with an explicit `JSNum` type.  Helper functions
that `main.js` imports from sibling modules (`./number`, `./path`) are
not part of the source tree and are modelled from the specification;
each such definition says so in its doc comment.
-/

namespace FunnelJS

/-- Modelled from the spec: `roundPoint` from `./number` (file not in the
source tree).  Per §6 of the spec every coordinate and percentage is
rounded to the nearest integer, half away from zero, at each computation
step. -/
def roundPoint (q : ℚ) : ℚ :=
  if 0 ≤ q then (⌊q + 1/2⌋ : ℤ) else (⌈q - 1/2⌉ : ℤ)

/-- `Math.max(...)` over a non-empty list of rationals.  (JavaScript
returns `-Infinity` on an empty spread; the `[]` case here is a sentinel
and every theorem that touches it assumes a non-empty list — the genuine
empty-list behaviour is captured by the `JSNum` model below.) -/
def listMax : List ℚ → ℚ
  | [] => 0
  | x :: xs => xs.foldl max x

/-- A dataset: either one-dimensional (scalar per segment) or
two-dimensional (list of sub-values per segment), as produced by the
normalizer.  `getGraphType` in the source dispatches on
`values[0] instanceof Array`. -/
inductive Dataset where
  | oneD (values : List ℚ)
  | twoD (values : List (List ℚ))
deriving DecidableEq

/-- `getValues2d`: per-segment totals (`reduce((sum, v) => sum + v, 0)`),
lines 278–286 of `main.js`. -/
def getValues2d (values : List (List ℚ)) : List ℚ :=
  values.map (fun valueSet => valueSet.foldl (fun sum value => sum + value) 0)

/-- `getPercentages2d`, lines 288–297: per-segment composition
percentages `roundPoint(value * 100 / total)`. -/
def getPercentages2d (values : List (List ℚ)) : List (List ℚ) :=
  values.map (fun valueSet =>
    let total := valueSet.foldl (fun sum value => sum + value) 0
    valueSet.map (fun value => roundPoint (value * 100 / total)))

/-- `createPercentages`, lines 299–310: relative-magnitude percentages
against the maximum (of totals in the 2-d case). -/
def createPercentages (d : Dataset) : List ℚ :=
  let values := match d with
    | .twoD v => getValues2d v
    | .oneD v => v
  let max := listMax values
  values.map (fun value => roundPoint (value * 100 / max))

/-- `getMainAxisPoints`, lines 56–64: `size + 1` evenly generated
coordinates `roundPoint(fullDimension * i / size)`, `i = 0..size`. -/
def getMainAxisPoints (size : ℕ) (fullDimension : ℚ) : List ℚ :=
  (List.range (size + 1)).map (fun i : ℕ => roundPoint (fullDimension * i / size))

/-- Duplicate the last value of a list
(`[...values].concat([...values].pop())` and the
`newPoints.push([...newPoints].pop())` idiom of the source). -/
def dupLast (l : List ℚ) : List ℚ :=
  l ++ [(l.getLast?).getD 0]

/-- The inner loop of `getCrossAxisPoints` (lines 84–98): one internal
boundary from the previous one, then the last value duplicated.
`percIdx` is the sub-value column used (`i - 1` in the source, where `i`
is the number of the boundary being built). -/
def newBoundary (fullDimension : ℚ) (top : List ℚ) (perc : List (List ℚ))
    (n : ℕ) (p : List ℚ) (percIdx : ℕ) : List ℚ :=
  dupLast ((List.range n).map (fun j =>
    roundPoint (p.getD j 0 +
      (fullDimension - (top.getD j 0) * 2) * (((perc.getD j []).getD percIdx 0) / 100))))

/-- Boundary number `k` of a two-dimensional funnel: boundary `0` is the
top path "A"; boundary `k+1` is derived from boundary `k` by
`newBoundary` using composition column `k` (the source's
`percentagesFull[j][i - 1]` with `i = k + 1`). -/
def boundary2d (fullDimension : ℚ) (top : List ℚ) (perc : List (List ℚ))
    (n : ℕ) : ℕ → List ℚ
  | 0 => top
  | k + 1 => newBoundary fullDimension top perc n
      (boundary2d fullDimension top perc n k) k

/-- The `pointsOfFirstPath` of `getCrossAxisPoints` (line 79 in the 2-d
branch, line 110 in the 1-d branch): the top path "A", computed over the
magnitudes with the last value duplicated. -/
def pointsOfFirstPath (magnitudes : List ℚ) (fullDimension : ℚ) : List ℚ :=
  let max := listMax magnitudes
  (dupLast magnitudes).map (fun value => roundPoint ((max - value) / max * (fullDimension / 2)))

/-- `getCrossAxisPoints`, lines 66–115.  The 2-d branch pushes the top
path, then `subDataSize - 1` internal boundaries each derived from the
previous, then the bottom path "D" defined directly as
`fullDimension - top[i]`.  The 1-d branch pushes the top path and its
mirror.  (With `subDataSize = 0` the `(subDataSize - 1) + 1` index range
is the singleton `[0]`, matching the source loop `for i = 1; i < 0`
which never runs.) -/
def getCrossAxisPoints (d : Dataset) (fullDimension : ℚ) : List (List ℚ) :=
  match d with
  | .twoD values =>
      let top := pointsOfFirstPath (getValues2d values) fullDimension
      let perc := getPercentages2d values
      let subDataSize := (values.headD []).length
      (List.range ((subDataSize - 1) + 1)).map
          (boundary2d fullDimension top perc values.length)
        ++ [top.map (fun point => fullDimension - point)]
  | .oneD values =>
      let top := pointsOfFirstPath values fullDimension
      [top, top.map (fun point => fullDimension - point)]

/-! ## Path instructions

The source serializes paths to SVG strings (`M… C… L… Z`).  The outline
is modelled representation-agnostically as an instruction list, one
instruction per emitted chunk of the string. -/

/-- One instruction of a serialized path: `M x,y`, `C cx1,cy1 cx2,cy2 x,y`,
`L x,y`, or `Z`. -/
inductive PathInstr where
  | move (x y : ℚ)
  | curve (cx1 cy1 cx2 cy2 x y : ℚ)
  | line (x y : ℚ)
  | close
deriving DecidableEq

/-- Modelled from the spec: `createCurves` from `./path` (file not in the
source tree).  Per §4.4 step 2 the emitted segment depends on whether the
main-axis index is the final one (`i = size - 1`): interior segments are
cubic curves whose control points sit at a fixed fraction (taken here as
one half, i.e. the midpoint) of the inter-point span along the main
axis, while the final segment is a straight line. -/
def createCurves (isFinal : Bool) (x1 y1 x2 y2 : ℚ) : PathInstr :=
  if isFinal then .line x2 y2
  else .curve (roundPoint ((x1 + x2) / 2)) y1 (roundPoint ((x1 + x2) / 2)) y2 x2 y2

/-- Modelled from the spec: `createVerticalCurves` from `./path` (file
not in the source tree).  The vertical orientation swaps the axis roles
(§4.5), so the control points are offset along the vertical main axis. -/
def createVerticalCurves (isFinal : Bool) (x1 y1 x2 y2 : ℚ) : PathInstr :=
  if isFinal then .line x2 y2
  else .curve x1 (roundPoint ((y1 + y2) / 2)) x2 (roundPoint ((y1 + y2) / 2)) x2 y2

/-- `createPath`, lines 409–429: move to the first point of boundary `Y`,
traverse forward along `Y`, a straight connector down to `YNext`,
traverse `YNext` backwards, close.  The finality flag handed to
`createCurves` marks the segment at main-axis index `size - 1`
(spec §4.4, steps 2 and 4). -/
def createPathFrom (X Y YNext : List ℚ) : List PathInstr :=
  [PathInstr.move (X.getD 0 0) (Y.getD 0 0)]
  ++ (List.range (X.length - 1)).map (fun i =>
      createCurves (i + 2 == X.length) (X.getD i 0) (Y.getD i 0)
        (X.getD (i + 1) 0) (Y.getD (i + 1) 0))
  ++ [PathInstr.line ((X.getLast?).getD 0) ((YNext.getLast?).getD 0)]
  ++ ((List.range (X.length - 1)).reverse).map (fun j =>
      createCurves (j + 2 == X.length) (X.getD (j + 1) 0) (YNext.getD (j + 1) 0)
        (X.getD j 0) (YNext.getD j 0))
  ++ [PathInstr.close]

/-- `createVerticalPath`, lines 440–460: same structure with the axis
roles swapped and the cross-axis boundaries supplying the `X`
coordinates. -/
def createVerticalPathFrom (X XNext Y : List ℚ) : List PathInstr :=
  [PathInstr.move (X.getD 0 0) (Y.getD 0 0)]
  ++ (List.range (X.length - 1)).map (fun i =>
      createVerticalCurves (i + 2 == X.length) (X.getD i 0) (Y.getD i 0)
        (X.getD (i + 1) 0) (Y.getD (i + 1) 0))
  ++ [PathInstr.line ((XNext.getLast?).getD 0) ((Y.getLast?).getD 0)]
  ++ ((List.range (X.length - 1)).reverse).map (fun j =>
      createVerticalCurves (j + 2 == X.length) (XNext.getD (j + 1) 0) (Y.getD (j + 1) 0)
        (XNext.getD j 0) (Y.getD j 0))
  ++ [PathInstr.close]

/-! ## The graph object

The geometry-relevant state of a `FunnelGraph` instance: the DOM
plumbing (container, SVG elements, labels) is out of scope (spec §1). -/

/-- Geometry-relevant fields of a `FunnelGraph` instance.  `direction`
and `gradientDirection` are kept as the strings the source stores. -/
structure FunnelGraph where
  direction : String
  gradientDirection : String
  values : Dataset
  percentages : List ℚ
  width : ℚ
  height : ℚ
deriving DecidableEq

/-- `isVertical`, line 125. -/
def FunnelGraph.isVertical (g : FunnelGraph) : Bool :=
  g.direction == "vertical"

/-- `getDataSize`, line 129: `this.values.length`. -/
def Dataset.dataSize : Dataset → ℕ
  | .oneD v => v.length
  | .twoD v => v.length

/-- `getFullDimension`, line 137: the cross-dimension length. -/
def FunnelGraph.getFullDimension (g : FunnelGraph) : ℚ :=
  if g.isVertical then g.width else g.height

/-- `getMainAxisPoints` as the method of lines 56–64 (the main dimension
is the height for vertical graphs, the width otherwise). -/
def FunnelGraph.mainAxisPoints (g : FunnelGraph) : List ℚ :=
  getMainAxisPoints g.values.dataSize (if g.isVertical then g.height else g.width)

/-- `getCrossAxisPoints` as the method of lines 66–115. -/
def FunnelGraph.crossAxisPoints (g : FunnelGraph) : List (List ℚ) :=
  getCrossAxisPoints g.values g.getFullDimension

/-- `createPath(index)`, lines 409–429. -/
def FunnelGraph.createPath (g : FunnelGraph) (index : ℕ) : List PathInstr :=
  createPathFrom g.mainAxisPoints (g.crossAxisPoints.getD index [])
    (g.crossAxisPoints.getD (index + 1) [])

/-- `createVerticalPath(index)`, lines 440–460. -/
def FunnelGraph.createVerticalPath (g : FunnelGraph) (index : ℕ) : List PathInstr :=
  createVerticalPathFrom (g.crossAxisPoints.getD index [])
    (g.crossAxisPoints.getD (index + 1) []) g.mainAxisPoints

/-- The outline `drawPaths` (lines 462–470) writes for path `index`:
vertical graphs use `createVerticalPath`, horizontal ones `createPath`. -/
def FunnelGraph.drawnPath (g : FunnelGraph) (index : ℕ) : List PathInstr :=
  if g.isVertical then g.createVerticalPath index else g.createPath index

/-- `makeVertical`, lines 489–503 (geometry-relevant part: the early
return when already vertical, otherwise the direction flips). -/
def FunnelGraph.makeVertical (g : FunnelGraph) : FunnelGraph :=
  if g.direction == "vertical" then g else { g with direction := "vertical" }

/-- `makeHorizontal`, lines 505–519. -/
def FunnelGraph.makeHorizontal (g : FunnelGraph) : FunnelGraph :=
  if g.direction == "horizontal" then g else { g with direction := "horizontal" }

/-- `toggleDirection`, lines 521–527. -/
def FunnelGraph.toggleDirection (g : FunnelGraph) : FunnelGraph :=
  if g.direction == "horizontal" then g.makeVertical else g.makeHorizontal

/-- The `d.values` branch of `updateData`, lines 600–610: both arms set
`this.values` to the new values and redraw; `this.percentages` is left
untouched. -/
def FunnelGraph.updateDataValues (g : FunnelGraph) (newValues : Dataset) : FunnelGraph :=
  { g with values := newValues }

/-- The constructor's direction fields, lines 11–14:
`(options.x && options.x === 'vertical') ? 'vertical' : 'horizontal'`.
A missing option is `none`; `some s` is any present string (the empty
string is falsy in JavaScript, but it is also not `'vertical'`, so the
conditional collapses to an exact-match test either way). -/
def constructorDirection : Option String → String
  | none => "horizontal"
  | some s => if s = "vertical" then "vertical" else "horizontal"

/-- Constructor options (geometry-relevant fields). -/
structure Options where
  direction : Option String
  gradientDirection : Option String
  values : Dataset
  width : ℚ
  height : ℚ

/-- The constructor, lines 9–24 (geometry-relevant fields): directions
from exact string matching, values as given, percentages derived by
`createPercentages`. -/
def FunnelGraph.init (o : Options) : FunnelGraph :=
  { direction := constructorDirection o.direction
    gradientDirection := constructorDirection o.gradientDirection
    values := o.values
    percentages := createPercentages o.values
    width := o.width
    height := o.height }

/-! ## Untyped-value models

Two small models of JavaScript's untyped arithmetic, used only where a
claim is about the untyped behaviour itself: the `NaN`/`Infinity`
arithmetic of `createPercentages` on degenerate datasets, and the raw
input shapes handled by `getValues`. -/

/-- An IEEE-style JavaScript number: finite (exact rational), `NaN`, or
a signed infinity. -/
inductive JSNum where
  | num (q : ℚ)
  | nan
  | inf
  | ninf
deriving DecidableEq

/-- `Math.max(...values)`: `-Infinity` on an empty spread, the maximum
otherwise. -/
def jsMax : List ℚ → JSNum
  | [] => .ninf
  | x :: xs => .num (xs.foldl max x)

/-- JavaScript division on the cases reachable from
`createPercentages`: a finite dividend and a finite or `-Infinity`
divisor.  `0 / 0` is `NaN`, `x / 0` is a signed infinity, `x / -∞` is
(negative) zero; any `NaN` operand propagates. -/
def jsDiv : JSNum → JSNum → JSNum
  | .nan, _ => .nan
  | _, .nan => .nan
  | .num a, .num b =>
      if b = 0 then (if a = 0 then .nan else if 0 < a then .inf else .ninf)
      else .num (a / b)
  | .num _, .inf => .num 0
  | .num _, .ninf => .num 0
  | .inf, .num b => if b < 0 then .ninf else .inf
  | .ninf, .num b => if b < 0 then .inf else .ninf
  | .inf, .inf => .nan
  | .inf, .ninf => .nan
  | .ninf, .inf => .nan
  | .ninf, .ninf => .nan

/-- `roundPoint` lifted to JavaScript numbers: `Math.round` maps `NaN`
and the infinities to themselves. -/
def roundPointJS : JSNum → JSNum
  | .num q => .num (roundPoint q)
  | .nan => .nan
  | .inf => .inf
  | .ninf => .ninf

/-- `createPercentages` (lines 299–310) on a one-dimensional dataset,
with the untyped JavaScript arithmetic kept: the maximum of an empty
spread is `-Infinity` and `value * 100 / max` may be `NaN`. -/
def createPercentagesJS (values : List ℚ) : List JSNum :=
  let max := jsMax values
  values.map (fun value => roundPointJS (jsDiv (.num (value * 100)) max))

/-- A raw input item as seen by `getValues`: a plain number, an object
with (or without) a numeric `value` field, or `undefined`. -/
inductive JSVal where
  | num (q : ℚ)
  | obj (value : Option ℚ)
  | undefined
deriving DecidableEq

/-- `Number.isInteger(x)`: true exactly for integral numbers (for a
rational, `Math.floor(x) === x`); false for any non-number. -/
def isIntegerJS : JSVal → Bool
  | .num q => decide ((⌊q⌋ : ℚ) = q)
  | _ => false

/-- Property access `item.value`: the `value` field of an object, else
`undefined` (a plain number has no `value` field). -/
def valueField : JSVal → JSVal
  | .obj (some v) => .num v
  | _ => .undefined

/-- The `data instanceof Array` branch of `getValues`, lines 265–270:
return the array as-is when `Number.isInteger(data[0])`, otherwise map
each item to `item.value`.  (`data[0]` of an empty array is `undefined`,
which is not an integer.) -/
def getValuesArray (data : List JSVal) : List JSVal :=
  if isIntegerJS (data.headD .undefined) then data
  else data.map valueField

/-! ## Helper lemmas -/

lemma getD_append_lt {α : Type} (l1 l2 : List α) (n : ℕ) (d : α) (h : n < l1.length) :
    (l1 ++ l2).getD n d = l1.getD n d := by
  simp [List.getD_eq_getElem?_getD, List.getElem?_append_left h]

lemma getD_map_lt {α β : Type} (f : α → β) (l : List α) (n : ℕ) (h : n < l.length)
    (d : β) (d' : α) : (l.map f).getD n d = f (l.getD n d') := by
  simp [List.getD_eq_getElem?_getD, List.getElem?_map, List.getElem?_eq_getElem h]

lemma getD_range_map {β : Type} (f : ℕ → β) (m k : ℕ) (h : k < m) (d : β) :
    ((List.range m).map f).getD k d = f k := by
  simp [List.getD_eq_getElem?_getD, List.getElem?_map, List.getElem?_range, h]

lemma length_dupLast (l : List ℚ) : (dupLast l).length = l.length + 1 := by
  simp [dupLast]

lemma getD_dupLast_lt (l : List ℚ) (n : ℕ) (h : n < l.length) (d : ℚ) :
    (dupLast l).getD n d = l.getD n d :=
  getD_append_lt l _ n d h

lemma getD_dupLast_length (l : List ℚ) :
    (dupLast l).getD l.length 0 = l.getD (l.length - 1) 0 := by
  have h1 : (dupLast l).getD l.length 0 = (l.getLast?).getD 0 := by
    simp [dupLast, List.getD_eq_getElem?_getD,
      List.getElem?_append_right (le_refl l.length)]
  rw [h1, List.getLast?_eq_getElem?, List.getD_eq_getElem?_getD]

lemma roundPoint_le (q : ℚ) : roundPoint q ≤ q + 1/2 := by
  unfold roundPoint
  split
  · exact Int.floor_le _
  · linarith [Int.ceil_lt_add_one (q - 1/2)]

lemma le_roundPoint (q : ℚ) : q - 1/2 ≤ roundPoint q := by
  unfold roundPoint
  split
  · linarith [Int.lt_floor_add_one (q + 1/2)]
  · exact Int.le_ceil _

lemma roundPoint_mono {q r : ℚ} (h : q ≤ r) : roundPoint q ≤ roundPoint r := by
  unfold roundPoint
  rcases le_or_lt 0 q with hq | hq <;> rcases le_or_lt 0 r with hr | hr
  · simp only [if_pos hq, if_pos hr]
    exact_mod_cast Int.floor_le_floor (by linarith)
  · linarith
  · simp only [if_neg (not_le.mpr hq), if_pos hr]
    have h1 : (⌈q - 1/2⌉ : ℤ) ≤ ⌈(0:ℚ)⌉ := Int.ceil_le_ceil (by linarith)
    have h2 : (⌊(0:ℚ)⌋ : ℤ) ≤ ⌊r + 1/2⌋ := Int.floor_le_floor (by linarith)
    have : (⌈q - 1/2⌉ : ℤ) ≤ ⌊r + 1/2⌋ := by
      simpa using le_trans h1 (by simpa using h2)
    exact_mod_cast this
  · simp only [if_neg (not_le.mpr hq), if_neg (not_le.mpr hr)]
    exact_mod_cast Int.ceil_le_ceil (by linarith)

lemma le_foldl_max (x : ℚ) (xs : List ℚ) : x ≤ xs.foldl max x := by
  induction xs generalizing x with
  | nil => exact le_refl x
  | cons y ys ih => exact le_trans (le_max_left x y) (ih (max x y))

lemma mem_le_foldl_max (v x : ℚ) (xs : List ℚ) (h : v ∈ xs) : v ≤ xs.foldl max x := by
  induction xs generalizing x with
  | nil => cases h
  | cons y ys ih =>
      rcases List.mem_cons.mp h with h | h
      · subst h
        exact le_trans (le_max_right x v) (le_foldl_max (max x v) ys)
      · exact ih (max x y) h

lemma foldl_max_mem (x : ℚ) (xs : List ℚ) : xs.foldl max x = x ∨ xs.foldl max x ∈ xs := by
  induction xs generalizing x with
  | nil => left; rfl
  | cons y ys ih =>
      rcases ih (max x y) with h | h
      · rcases max_choice x y with hm | hm
        · left; simpa [hm] using h
        · right; rw [List.foldl_cons, h, hm]; exact List.mem_cons_self y ys
      · right; exact List.mem_cons_of_mem y h

lemma listMax_le (l : List ℚ) (v : ℚ) (h : v ∈ l) : v ≤ listMax l := by
  cases l with
  | nil => cases h
  | cons x xs =>
      rcases List.mem_cons.mp h with h | h
      · subst h; exact le_foldl_max v xs
      · exact mem_le_foldl_max v x xs h

lemma listMax_mem (l : List ℚ) (h : l ≠ []) : listMax l ∈ l := by
  cases l with
  | nil => exact absurd rfl h
  | cons x xs =>
      rcases foldl_max_mem x xs with h1 | h1
      · rw [listMax, h1]; exact List.mem_cons_self x xs
      · exact List.mem_cons_of_mem x h1

lemma getD_append_ge {α : Type} (l1 l2 : List α) (n : ℕ) (d : α) (h : l1.length ≤ n) :
    (l1 ++ l2).getD n d = l2.getD (n - l1.length) d := by
  simp [List.getD_eq_getElem?_getD, List.getElem?_append_right h]

lemma getD_mem {α : Type} (l : List α) (n : ℕ) (h : n < l.length) (d : α) :
    l.getD n d ∈ l := by
  rw [List.getD_eq_getElem?_getD, List.getElem?_eq_getElem h]
  exact List.getElem_mem h

lemma foldl_add_eq_sum (l : List ℚ) : l.foldl (fun sum value => sum + value) 0 = l.sum := by
  rw [List.sum_eq_foldl]

/-- A valid dataset: non-empty with a positive maximum magnitude
(spec §4.2/§4.3; on anything else the JavaScript arithmetic degenerates
to `NaN`, see the `JSNum` model). -/
def Dataset.valid : Dataset → Prop
  | .oneD v => v ≠ [] ∧ 0 < listMax v
  | .twoD v => v ≠ [] ∧ 0 < listMax (getValues2d v)

lemma length_pointsOfFirstPath (magnitudes : List ℚ) (full : ℚ) :
    (pointsOfFirstPath magnitudes full).length = magnitudes.length + 1 := by
  simp [pointsOfFirstPath, dupLast]

lemma crossAxis_twoD_head (values : List (List ℚ)) (full : ℚ) :
    (getCrossAxisPoints (.twoD values) full).headD [] =
      pointsOfFirstPath (getValues2d values) full := by
  simp [getCrossAxisPoints, List.range_succ_eq_map, boundary2d]

lemma crossAxis_twoD_last (values : List (List ℚ)) (full : ℚ) :
    ((getCrossAxisPoints (.twoD values) full).getLast?).getD [] =
      (pointsOfFirstPath (getValues2d values) full).map (fun point => full - point) := by
  simp [getCrossAxisPoints, List.getLast?_concat]

/-! ## Claim theorems -/

/-- A lemma for the constructor's direction normalization: exactly the
string `"vertical"` yields `"vertical"`, everything else yields
`"horizontal"`. -/
lemma constructorDirection_cases (x : Option String) :
    (constructorDirection x = "vertical" ↔ x = some "vertical") ∧
    (constructorDirection x = "vertical" ∨ constructorDirection x = "horizontal") := by
  cases x with
  | none => refine ⟨?_, Or.inr rfl⟩; simp [constructorDirection]
  | some s =>
      by_cases hs : s = "vertical"
      · subst hs; exact ⟨by simp [constructorDirection], Or.inl (by simp [constructorDirection])⟩
      · refine ⟨?_, Or.inr (by simp [constructorDirection, hs])⟩
        simp [constructorDirection, hs]

/-- C10: a constructed graph's `direction` is `"vertical"` exactly when
`options.direction` is the exact string `"vertical"`; any other option
value (absent, differently cased, or otherwise) yields `"horizontal"`,
and the same exact-match rule governs `gradientDirection`. -/
theorem direction_exact_match (o : Options) :
    ((FunnelGraph.init o).direction = "vertical" ↔ o.direction = some "vertical") ∧
    ((FunnelGraph.init o).direction = "vertical" ∨
      (FunnelGraph.init o).direction = "horizontal") ∧
    ((FunnelGraph.init o).gradientDirection = "vertical" ↔
      o.gradientDirection = some "vertical") ∧
    ((FunnelGraph.init o).gradientDirection = "vertical" ∨
      (FunnelGraph.init o).gradientDirection = "horizontal") := by
  have h1 := constructorDirection_cases o.direction
  have h2 := constructorDirection_cases o.gradientDirection
  exact ⟨h1.1, h1.2, h2.1, h2.2⟩

/-- C7: toggling the orientation twice restores the graph state exactly,
hence the main-axis points, the cross-axis boundary arrays and the drawn
segment outlines are reproduced coordinate for coordinate. -/
theorem toggleDirection_roundtrip (g : FunnelGraph) (index : ℕ)
    (h : g.direction = "horizontal" ∨ g.direction = "vertical") :
    g.toggleDirection.toggleDirection = g ∧
    g.toggleDirection.toggleDirection.mainAxisPoints = g.mainAxisPoints ∧
    g.toggleDirection.toggleDirection.crossAxisPoints = g.crossAxisPoints ∧
    g.toggleDirection.toggleDirection.drawnPath index = g.drawnPath index := by
  have key : g.toggleDirection.toggleDirection = g := by
    obtain ⟨dir, gdir, vals, perc, w, hgt⟩ := g
    rcases h with h | h <;>
      simp_all [FunnelGraph.toggleDirection, FunnelGraph.makeVertical,
        FunnelGraph.makeHorizontal]
  exact ⟨key, by rw [key], by rw [key], by rw [key]⟩

/-- Witness for C7 at a concrete graph. -/
theorem toggleDirection_roundtrip_witness :
    letI g : FunnelGraph :=
      FunnelGraph.init ⟨none, none, .oneD [10, 20, 30, 40], 400, 200⟩
    g.toggleDirection.toggleDirection = g ∧
    g.toggleDirection.toggleDirection.mainAxisPoints = g.mainAxisPoints ∧
    g.toggleDirection.toggleDirection.crossAxisPoints = g.crossAxisPoints ∧
    g.toggleDirection.toggleDirection.drawnPath 0 = g.drawnPath 0 :=
  toggleDirection_roundtrip _ 0 (Or.inl rfl)

/-- C3 (amended): `getMainAxisPoints` returns `size + 1` coordinates
with `point[i] = roundPoint(fullDimension * i / size)`, and for a
non-negative main-dimension length the points are monotonically
non-decreasing.  (Exactly equal spacing, and strictness, fail in
general; see the counterexample.) -/
theorem mainAxisPoints_formula (size : ℕ) (fullDimension : ℚ)
    (hsize : 1 ≤ size) (hfull : 0 ≤ fullDimension) :
    (getMainAxisPoints size fullDimension).length = size + 1 ∧
    (∀ i ≤ size, (getMainAxisPoints size fullDimension).getD i 0 =
      roundPoint (fullDimension * i / size)) ∧
    (∀ i < size, (getMainAxisPoints size fullDimension).getD i 0 ≤
      (getMainAxisPoints size fullDimension).getD (i + 1) 0) := by
  refine ⟨by simp [getMainAxisPoints], ?_, ?_⟩
  · intro i hi
    simp only [getMainAxisPoints]
    exact getD_range_map _ _ i (by omega) 0
  · intro i hi
    simp only [getMainAxisPoints]
    rw [getD_range_map _ _ i (by omega) 0, getD_range_map _ _ (i + 1) (by omega) 0]
    apply roundPoint_mono
    gcongr
    exact Nat.le_succ i

/-- Counterexample for C3 as stated: for `size = 3`,
`fullDimension = 100` the spacing is 33, 34, 33 (not equal), and for
`size = 3`, `fullDimension = 1` the points are not strictly
increasing. -/
theorem mainAxisPoints_spacing_counterexample :
    getMainAxisPoints 3 100 = [0, 33, 67, 100] ∧
    (getMainAxisPoints 3 100).getD 2 0 - (getMainAxisPoints 3 100).getD 1 0 ≠
      (getMainAxisPoints 3 100).getD 1 0 - (getMainAxisPoints 3 100).getD 0 0 ∧
    getMainAxisPoints 3 1 = [0, 0, 1, 1] ∧
    (getMainAxisPoints 3 1).getD 0 0 = (getMainAxisPoints 3 1).getD 1 0 := by
  have h1 : getMainAxisPoints 3 100 = [0, 33, 67, 100] := by
    norm_num [getMainAxisPoints, roundPoint, List.range_succ]
  have h2 : getMainAxisPoints 3 1 = [0, 0, 1, 1] := by
    norm_num [getMainAxisPoints, roundPoint, List.range_succ]
  refine ⟨h1, ?_, h2, ?_⟩
  · rw [h1]; norm_num
  · rw [h2]; rfl

/-- Witness for C3 (amended) at `size = 4`, `fullDimension = 100`,
together with the concrete value `[0, 25, 50, 75, 100]`. -/
theorem mainAxisPoints_formula_witness :
    getMainAxisPoints 4 100 = [0, 25, 50, 75, 100] ∧
    ((getMainAxisPoints 4 100).length = 4 + 1 ∧
    (∀ i ≤ 4, (getMainAxisPoints 4 100).getD i 0 =
      roundPoint (100 * i / 4)) ∧
    (∀ i < 4, (getMainAxisPoints 4 100).getD i 0 ≤
      (getMainAxisPoints 4 100).getD (i + 1) 0)) :=
  ⟨by norm_num [getMainAxisPoints, roundPoint, List.range_succ],
   mainAxisPoints_formula 4 100 (by norm_num) (by norm_num)⟩

/-- C6: for a non-empty one-dimensional dataset with positive maximum,
`percentage[i] = roundPoint(values[i] * 100 / M)` where `M` is the
maximum of the values (an element of the list bounding every other
element). -/
theorem percentages_formula_oneD (values : List ℚ) (hne : values ≠ [])
    (hpos : 0 < listMax values) :
    ∃ M : ℚ, M ∈ values ∧ (∀ v ∈ values, v ≤ M) ∧ 0 < M ∧
      (createPercentages (.oneD values)).length = values.length ∧
      ∀ i < values.length,
        (createPercentages (.oneD values)).getD i 0 =
          roundPoint (values.getD i 0 * 100 / M) := by
  refine ⟨listMax values, listMax_mem values hne,
    fun v hv => listMax_le values v hv, hpos, by simp [createPercentages], ?_⟩
  intro i hi
  simp only [createPercentages]
  exact getD_map_lt _ values i hi 0 0

/-- Witness for C6 at `[10, 50, 100]`, whose percentages are
`[10, 50, 100]`. -/
theorem percentages_formula_oneD_witness :
    createPercentages (.oneD [10, 50, 100]) = [10, 50, 100] ∧
    (∃ M : ℚ, M ∈ ([10, 50, 100] : List ℚ) ∧
      (∀ v ∈ ([10, 50, 100] : List ℚ), v ≤ M) ∧ 0 < M ∧
      (createPercentages (.oneD [10, 50, 100])).length =
        ([10, 50, 100] : List ℚ).length ∧
      ∀ i < ([10, 50, 100] : List ℚ).length,
        (createPercentages (.oneD [10, 50, 100])).getD i 0 =
          roundPoint (([10, 50, 100] : List ℚ).getD i 0 * 100 / M)) :=
  ⟨by norm_num [createPercentages, listMax, roundPoint],
   percentages_formula_oneD [10, 50, 100] (by simp) (by norm_num [listMax])⟩

/-- Counterexample for C2 as stated: on the all-zero dataset the
percentage calculation returns a list of `NaN` values; no
`InvalidDataError` (or any error) is raised — the source has no such
error type. -/
theorem createPercentages_zero_counterexample :
    createPercentagesJS [0, 0, 0] = [JSNum.nan, JSNum.nan, JSNum.nan] ∧
    JSNum.nan ∈ createPercentagesJS [0, 0, 0] := by
  have h : createPercentagesJS [0, 0, 0] = [JSNum.nan, JSNum.nan, JSNum.nan] := by
    norm_num [createPercentagesJS, jsMax, jsDiv, roundPointJS]
  exact ⟨h, by rw [h]; simp⟩

/-- C2 (amended): on any all-zero dataset (including the empty one) the
percentage calculation silently produces one `NaN` per entry (an empty
result for the empty dataset) instead of raising `InvalidDataError`. -/
theorem createPercentagesJS_allZero_nan (values : List ℚ)
    (h : ∀ v ∈ values, v = 0) :
    createPercentagesJS values = values.map (fun _ => JSNum.nan) := by
  cases values with
  | nil => rfl
  | cons x xs =>
      have hmax : jsMax (x :: xs) = JSNum.num 0 := by
        have h0 : listMax (x :: xs) = 0 := h _ (listMax_mem _ (by simp))
        simpa [jsMax, listMax] using h0
      simp only [createPercentagesJS, hmax]
      refine List.map_congr_left ?_
      intro v hv
      have hv0 : v = 0 := h v hv
      subst hv0
      norm_num [jsDiv, roundPointJS]

/-- Witness for C2 (amended) at the dataset `[0, 0, 0]`. -/
theorem createPercentagesJS_allZero_nan_witness :
    createPercentagesJS [0, 0, 0] = [JSNum.nan, JSNum.nan, JSNum.nan] := by
  have h := createPercentagesJS_allZero_nan [0, 0, 0]
    (by intro v hv; simp at hv; exact hv)
  simpa using h

/-- C8: after `updateData` replaces the values, the stored percentages
are stale — they are the percentages of the old dataset, not of the
values currently held. -/
theorem updateData_stale_percentages :
    letI g : FunnelGraph :=
      FunnelGraph.init ⟨none, none, .oneD [10, 50, 100], 300, 200⟩
    letI g' : FunnelGraph := g.updateDataValues (.oneD [1, 2, 4])
    g'.percentages = [10, 50, 100] ∧
    createPercentages g'.values = [25, 50, 100] ∧
    g'.percentages ≠ createPercentages g'.values := by
  refine ⟨?_, ?_, ?_⟩ <;>
    norm_num [FunnelGraph.init, FunnelGraph.updateDataValues, createPercentages,
      listMax, roundPoint]

/-- Counterexample for C9 as stated: the flat number sequence
`[1.5, 2.5]` is not preserved — its first element is not an integer, so
every item is mapped to its (absent) `value` field, yielding
`undefined`s. -/
theorem getValues_nonint_flat_counterexample :
    getValuesArray [JSVal.num (3/2), JSVal.num (5/2)] = [JSVal.undefined, JSVal.undefined] ∧
    getValuesArray [JSVal.num (3/2), JSVal.num (5/2)] ≠
      [JSVal.num (3/2), JSVal.num (5/2)] := by
  have hint : isIntegerJS (JSVal.num (3/2)) = false := by
    simp only [isIntegerJS, decide_eq_false_iff_not]
    norm_num
  have h : getValuesArray [JSVal.num (3/2), JSVal.num (5/2)] =
      [JSVal.undefined, JSVal.undefined] := by
    simp [getValuesArray, hint, valueField]
  exact ⟨h, by rw [h]; simp⟩

/-- C9 (amended): a flat sequence of numbers is accepted and returned
exactly as given precisely when it is empty or its first element is an
integer; otherwise every item is replaced by its `value` field
(`undefined` for a plain number). -/
theorem getValues_flat_preserved_iff (data : List JSVal)
    (hnum : ∀ item ∈ data, ∃ q : ℚ, item = JSVal.num q) :
    getValuesArray data = data ↔
      (data = [] ∨ isIntegerJS (data.headD .undefined) = true) := by
  constructor
  · intro h
    cases data with
    | nil => exact Or.inl rfl
    | cons x xs =>
        by_cases hint : isIntegerJS ((x :: xs).headD .undefined) = true
        · exact Or.inr hint
        · exfalso
          obtain ⟨q, hq⟩ := hnum x (by simp)
          have hmap : getValuesArray (x :: xs) = (x :: xs).map valueField := by
            unfold getValuesArray
            rw [if_neg hint]
          rw [hmap, List.map_cons] at h
          have hx : valueField x = x := (List.cons.injEq _ _ _ _).mp h |>.1
          rw [hq] at hx
          simp [valueField] at hx
  · intro h
    rcases h with h | h
    · subst h; rfl
    · unfold getValuesArray
      rw [if_pos h]

/-- Witness for C9 (amended): a flat sequence starting with an integer
is preserved exactly, including its non-integer entries. -/
theorem getValues_flat_preserved_witness :
    getValuesArray [JSVal.num 3, JSVal.num (3/2)] =
      [JSVal.num 3, JSVal.num (3/2)] := by
  refine (getValues_flat_preserved_iff _ ?_).mpr (Or.inr ?_)
  · intro item hitem
    simp only [List.mem_cons, List.mem_singleton] at hitem
    rcases hitem with h | h | h
    · exact ⟨3, h⟩
    · exact ⟨3/2, h⟩
    · cases h
  · simp only [List.headD_cons, isIntegerJS, decide_eq_true_eq]
    norm_num

/-- C1: for every valid dataset the first boundary array (top) and the
last boundary array (bottom) of `getCrossAxisPoints` are exact mirrors:
the bottom is defined directly as `fullDimension - top[i]` (as a mapped
copy of the top, never derived incrementally), so
`top[i] + bottom[i] = fullDimension` and
`bottom[i] - top[i] = fullDimension - 2 * top[i]` hold exactly at every
main-axis index, independent of the rounding in internal boundaries. -/
theorem crossAxis_mirror_symmetry (d : Dataset) (full : ℚ) (hv : d.valid) :
    letI pts := getCrossAxisPoints d full
    letI top := pts.headD []
    letI bottom := (pts.getLast?).getD []
    top.length = d.dataSize + 1 ∧
    bottom = top.map (fun point => full - point) ∧
    ∀ i < top.length,
      top.getD i 0 + bottom.getD i 0 = full ∧
      bottom.getD i 0 - top.getD i 0 = full - 2 * top.getD i 0 := by
  have main : ∀ tp : List ℚ, ∀ i < tp.length,
      tp.getD i 0 + (tp.map (fun point => full - point)).getD i 0 = full ∧
      (tp.map (fun point => full - point)).getD i 0 - tp.getD i 0 =
        full - 2 * tp.getD i 0 := by
    intro tp i hi
    rw [getD_map_lt _ tp i hi 0 0]
    constructor <;> ring
  cases d with
  | oneD values =>
      have htop : (getCrossAxisPoints (.oneD values) full).headD [] =
          pointsOfFirstPath values full := rfl
      have hbot : ((getCrossAxisPoints (.oneD values) full).getLast?).getD [] =
          (pointsOfFirstPath values full).map (fun point => full - point) := rfl
      refine ⟨?_, ?_, ?_⟩
      · rw [htop, length_pointsOfFirstPath]; rfl
      · rw [htop, hbot]
      · intro i hi
        rw [htop] at hi ⊢
        rw [hbot]
        exact main _ i hi
  | twoD values =>
      have htop := crossAxis_twoD_head values full
      have hbot := crossAxis_twoD_last values full
      refine ⟨?_, ?_, ?_⟩
      · rw [htop, length_pointsOfFirstPath]
        simp [getValues2d, Dataset.dataSize]
      · rw [htop, hbot]
      · intro i hi
        rw [htop] at hi ⊢
        rw [hbot]
        exact main _ i hi

/-- Witness for C1 at the spec's examples: the one-dimensional dataset
`[10, 20, 30, 40]` with `fullDimension = 200` and the two-dimensional
dataset `[[5, 5], [10, 10]]` with `fullDimension = 200`. -/
theorem crossAxis_mirror_symmetry_witness :
    (letI pts := getCrossAxisPoints (.oneD [10, 20, 30, 40]) 200
     letI top := pts.headD []
     letI bottom := (pts.getLast?).getD []
     top.length = (Dataset.oneD [10, 20, 30, 40]).dataSize + 1 ∧
     bottom = top.map (fun point => (200:ℚ) - point) ∧
     ∀ i < top.length,
       top.getD i 0 + bottom.getD i 0 = 200 ∧
       bottom.getD i 0 - top.getD i 0 = 200 - 2 * top.getD i 0) ∧
    (letI pts := getCrossAxisPoints (.twoD [[5, 5], [10, 10]]) 200
     letI top := pts.headD []
     letI bottom := (pts.getLast?).getD []
     top.length = (Dataset.twoD [[5, 5], [10, 10]]).dataSize + 1 ∧
     bottom = top.map (fun point => (200:ℚ) - point) ∧
     ∀ i < top.length,
       top.getD i 0 + bottom.getD i 0 = 200 ∧
       bottom.getD i 0 - top.getD i 0 = 200 - 2 * top.getD i 0) :=
  ⟨crossAxis_mirror_symmetry (.oneD [10, 20, 30, 40]) 200
      ⟨by simp, by norm_num [listMax]⟩,
   crossAxis_mirror_symmetry (.twoD [[5, 5], [10, 10]]) 200
      ⟨by simp, by norm_num [listMax, getValues2d]⟩⟩

/-- C4: for a valid two-dimensional dataset, composition percentages are
`roundPoint(subvalues[i][j] * 100 / total[i])`; every internal boundary
`k = 1..K-1` satisfies
`boundary[k][i] = roundPoint(boundary[k-1][i] + (full - 2*top[i]) * composition[i][k-1] / 100)`
at every main-axis index `i < N`; and each of the `K+1` boundary arrays
has length `N+1` with its last value duplicated. -/
theorem crossAxis2d_composition_boundaries (values : List (List ℚ)) (full : ℚ)
    (K : ℕ) (hK : 1 ≤ K) (hN : 1 ≤ values.length)
    (hrows : ∀ row ∈ values, row.length = K)
    (hpos : ∀ row ∈ values, 0 < row.sum) :
    (getCrossAxisPoints (.twoD values) full).length = K + 1 ∧
    (∀ k ≤ K, ((getCrossAxisPoints (.twoD values) full).getD k []).length =
        values.length + 1 ∧
      ((getCrossAxisPoints (.twoD values) full).getD k []).getD values.length 0 =
        ((getCrossAxisPoints (.twoD values) full).getD k []).getD (values.length - 1) 0) ∧
    (∀ i < values.length, ∀ j < K,
      ((getPercentages2d values).getD i []).getD j 0 =
        roundPoint ((values.getD i []).getD j 0 * 100 / (values.getD i []).sum)) ∧
    (∀ k, 1 ≤ k → k ≤ K - 1 → ∀ i < values.length,
      ((getCrossAxisPoints (.twoD values) full).getD k []).getD i 0 =
        roundPoint (((getCrossAxisPoints (.twoD values) full).getD (k - 1) []).getD i 0 +
          (full - 2 * ((getCrossAxisPoints (.twoD values) full).getD 0 []).getD i 0) *
            (((getPercentages2d values).getD i []).getD (k - 1) 0) / 100)) := by
  set N := values.length with hNdef
  set top := pointsOfFirstPath (getValues2d values) full with htopdef
  set perc := getPercentages2d values with hpercdef
  set pts := getCrossAxisPoints (.twoD values) full with hptsdef
  have hsub : (values.headD []).length = K := by
    cases values with
    | nil => simp [hNdef] at hN
    | cons r rest => exact hrows r (List.mem_cons_self r rest)
  have hpts : pts = (List.range K).map (boundary2d full top perc N) ++
      [top.map (fun point => full - point)] := by
    rw [hptsdef]
    simp only [getCrossAxisPoints, hsub, htopdef, hpercdef, hNdef]
    have hKK : K - 1 + 1 = K := by omega
    rw [hKK]
  have hlenTop : top.length = N + 1 := by
    rw [htopdef, length_pointsOfFirstPath]
    simp [getValues2d, hNdef]
  have hBlen : ∀ k, (boundary2d full top perc N k).length = N + 1 := by
    intro k
    cases k with
    | zero => exact hlenTop
    | succ k' => simp [boundary2d, newBoundary, dupLast]
  have hBk : ∀ k < K, pts.getD k [] = boundary2d full top perc N k := by
    intro k hk
    rw [hpts, getD_append_lt _ _ k [] (by simpa using hk)]
    exact getD_range_map _ _ k hk []
  have hBK : pts.getD K [] = top.map (fun point => full - point) := by
    rw [hpts, getD_append_ge _ _ K [] (by simp)]
    simp
  have hB0 : pts.getD 0 [] = top := by rw [hBk 0 hK]; rfl
  have htotlen : (getValues2d values).length = N := by simp [getValues2d, hNdef]
  have htopdup : top.getD N 0 = top.getD (N - 1) 0 := by
    rw [htopdef]
    simp only [pointsOfFirstPath]
    rw [getD_map_lt _ _ N (by simp [dupLast, htotlen]) 0 0,
      getD_map_lt _ _ (N - 1) (by simp [dupLast]; omega) 0 0]
    have hdl : (dupLast (getValues2d values)).getD N 0 =
        (getValues2d values).getD (N - 1) 0 := by
      have h := getD_dupLast_length (getValues2d values)
      rwa [htotlen] at h
    rw [hdl, getD_dupLast_lt _ (N - 1) (by rw [htotlen]; omega) 0]
  refine ⟨?_, ?_, ?_, ?_⟩
  · rw [hpts]; simp
  · intro k hk
    rcases Nat.lt_or_ge k K with hklt | hkge
    · rw [hBk k hklt]
      refine ⟨hBlen k, ?_⟩
      cases k with
      | zero => exact htopdup
      | succ k' =>
          show (newBoundary full top perc N (boundary2d full top perc N k') k').getD N 0 =
            (newBoundary full top perc N (boundary2d full top perc N k') k').getD (N - 1) 0
          unfold newBoundary
          set np := (List.range N).map (fun j => roundPoint
              ((boundary2d full top perc N k').getD j 0 +
                (full - top.getD j 0 * 2) * ((perc.getD j []).getD k' 0 / 100))) with hnpdef
          have hnp : np.length = N := by simp [hnpdef]
          have h1 : (dupLast np).getD N 0 = np.getD (N - 1) 0 := by
            have h := getD_dupLast_length np
            rwa [hnp] at h
          have h2 : (dupLast np).getD (N - 1) 0 = np.getD (N - 1) 0 :=
            getD_dupLast_lt np (N - 1) (by rw [hnp]; omega) 0
          rw [h1, h2]
    · have hkK : k = K := by omega
      subst hkK
      rw [hBK]
      constructor
      · simp [hlenTop]
      · rw [getD_map_lt _ top N (by rw [hlenTop]; omega) 0 0,
          getD_map_lt _ top (N - 1) (by rw [hlenTop]; omega) 0 0, htopdup]
  · intro i hi j hj
    have hrow : values.getD i [] ∈ values := getD_mem values i hi []
    have hrlen : (values.getD i []).length = K := hrows _ hrow
    show ((getPercentages2d values).getD i []).getD j 0 = _
    unfold getPercentages2d
    rw [getD_map_lt _ values i hi [] []]
    rw [getD_map_lt _ _ j (by rw [hrlen]; exact hj) 0 0]
    rw [foldl_add_eq_sum]
  · intro k hk1 hkK i hi
    have hklt : k < K := by omega
    obtain ⟨k', rfl⟩ : ∃ k', k = k' + 1 := ⟨k - 1, by omega⟩
    have hk'lt : k' < K := by omega
    have hsimp : k' + 1 - 1 = k' := by omega
    rw [hsimp, hBk _ hklt, hBk _ hk'lt, hB0]
    show (newBoundary full top perc N (boundary2d full top perc N k') k').getD i 0 = _
    unfold newBoundary
    rw [getD_dupLast_lt _ i (by simpa using hi) 0]
    rw [getD_range_map _ N i hi 0]
    congr 1
    ring

/-- Witness for C4 at the spec's example dataset `[[5, 5], [10, 10]]`
with `fullDimension = 200`. -/
theorem crossAxis2d_composition_boundaries_witness :
    letI N := ([[5, 5], [10, 10]] : List (List ℚ)).length
    letI pts := getCrossAxisPoints (.twoD [[5, 5], [10, 10]]) 200
    pts.length = 2 + 1 ∧
    (∀ k ≤ 2, (pts.getD k []).length = N + 1 ∧
      (pts.getD k []).getD N 0 = (pts.getD k []).getD (N - 1) 0) ∧
    (∀ i < N, ∀ j < 2,
      ((getPercentages2d [[5, 5], [10, 10]]).getD i []).getD j 0 =
        roundPoint ((([[5, 5], [10, 10]] : List (List ℚ)).getD i []).getD j 0 * 100 /
          (([[5, 5], [10, 10]] : List (List ℚ)).getD i []).sum)) ∧
    (∀ k, 1 ≤ k → k ≤ 2 - 1 → ∀ i < N,
      (pts.getD k []).getD i 0 =
        roundPoint ((pts.getD (k - 1) []).getD i 0 +
          (200 - 2 * (pts.getD 0 []).getD i 0) *
            (((getPercentages2d [[5, 5], [10, 10]]).getD i []).getD (k - 1) 0) / 100)) :=
  crossAxis2d_composition_boundaries [[5, 5], [10, 10]] 200 2 (by norm_num)
    (by norm_num)
    (by intro row hrow; fin_cases hrow <;> rfl)
    (by intro row hrow; fin_cases hrow <;> norm_num)

lemma getD_reverse_range_map {β : Type} (f : ℕ → β) (m t : ℕ) (h : t < m) (d : β) :
    (((List.range m).reverse).map f).getD t d = f (m - 1 - t) := by
  rw [List.getD_eq_getElem?_getD, List.getElem?_map,
    List.getElem?_reverse (by simpa using h)]
  have h2 : m - 1 - t < m := by omega
  simp [List.length_range, List.getElem?_range, h2]

lemma roundPoint_mid_between {a b : ℚ} (h : a + 2 ≤ b) :
    a < roundPoint ((a + b) / 2) ∧ roundPoint ((a + b) / 2) < b := by
  have h1 := le_roundPoint ((a + b) / 2)
  have h2 := roundPoint_le ((a + b) / 2)
  constructor <;> linarith

lemma length_mainAxisPoints (g : FunnelGraph) :
    g.mainAxisPoints.length = g.values.dataSize + 1 := by
  simp [FunnelGraph.mainAxisPoints, getMainAxisPoints]

lemma length_createPathFrom (X Y YNext : List ℚ) :
    (createPathFrom X Y YNext).length = 2 * (X.length - 1) + 3 := by
  simp [createPathFrom]
  omega

lemma createPathFrom_getD_forward (X Y YNext : List ℚ) (size : ℕ)
    (hXlen : X.length = size + 1) (n : ℕ) (hn : n < size) :
    (createPathFrom X Y YNext).getD (1 + n) PathInstr.close =
      createCurves (n + 2 == size + 1) (X.getD n 0) (Y.getD n 0)
        (X.getD (n + 1) 0) (Y.getD (n + 1) 0) := by
  unfold createPathFrom
  rw [hXlen]
  simp only [Nat.add_sub_cancel]
  rw [getD_append_lt _ _ _ _ (by simp; omega)]
  rw [getD_append_lt _ _ _ _ (by simp; omega)]
  rw [getD_append_lt _ _ _ _ (by simp; omega)]
  rw [getD_append_ge _ _ _ _ (by simp)]
  simp only [List.length_singleton, Nat.add_sub_cancel_left]
  exact getD_range_map _ size n hn _

lemma createPathFrom_getD_reverse (X Y YNext : List ℚ) (size : ℕ)
    (hXlen : X.length = size + 1) (t : ℕ) (ht : t < size) :
    (createPathFrom X Y YNext).getD (size + 2 + t) PathInstr.close =
      createCurves ((size - 1 - t) + 2 == size + 1)
        (X.getD ((size - 1 - t) + 1) 0) (YNext.getD ((size - 1 - t) + 1) 0)
        (X.getD (size - 1 - t) 0) (YNext.getD (size - 1 - t) 0) := by
  unfold createPathFrom
  rw [hXlen]
  simp only [Nat.add_sub_cancel]
  rw [getD_append_lt _ _ _ _ (by simp; omega)]
  rw [getD_append_ge _ _ _ _ (by simp)]
  have hidx : size + 2 + t - (([PathInstr.move (X.getD 0 0) (Y.getD 0 0)] ++
      (List.range size).map (fun i =>
        createCurves (i + 2 == size + 1) (X.getD i 0) (Y.getD i 0)
          (X.getD (i + 1) 0) (Y.getD (i + 1) 0)) ++
      [PathInstr.line ((X.getLast?).getD 0) ((YNext.getLast?).getD 0)]).length) = t := by
    simp
  rw [hidx]
  exact getD_reverse_range_map _ size t ht _

/-- C5: in the outline built by `createPath`, the segment at the final
main-axis index is emitted as a straight line in both the forward and
the return traversal, while every interior segment is a cubic curve
whose control points sit strictly between its endpoints along the main
axis (given adjacent main-axis points at least 2 apart). -/
theorem createPath_terminal_edge (g : FunnelGraph) (index : ℕ)
    (hsize : 1 ≤ g.values.dataSize)
    (hgap : ∀ i < g.values.dataSize,
      g.mainAxisPoints.getD i 0 + 2 ≤ g.mainAxisPoints.getD (i + 1) 0) :
    letI size := g.values.dataSize
    letI X := g.mainAxisPoints
    letI Y := g.crossAxisPoints.getD index []
    letI YNext := g.crossAxisPoints.getD (index + 1) []
    letI instrs := g.createPath index
    instrs.length = 2 * size + 3 ∧
    instrs.getD size PathInstr.close =
      PathInstr.line (X.getD size 0) (Y.getD size 0) ∧
    instrs.getD (size + 2) PathInstr.close =
      PathInstr.line (X.getD (size - 1) 0) (YNext.getD (size - 1) 0) ∧
    (∀ i, i + 1 < size →
      instrs.getD (1 + i) PathInstr.close =
        PathInstr.curve (roundPoint ((X.getD i 0 + X.getD (i + 1) 0) / 2)) (Y.getD i 0)
          (roundPoint ((X.getD i 0 + X.getD (i + 1) 0) / 2)) (Y.getD (i + 1) 0)
          (X.getD (i + 1) 0) (Y.getD (i + 1) 0) ∧
        X.getD i 0 < roundPoint ((X.getD i 0 + X.getD (i + 1) 0) / 2) ∧
        roundPoint ((X.getD i 0 + X.getD (i + 1) 0) / 2) < X.getD (i + 1) 0) ∧
    (∀ t, 1 ≤ t → t < size →
      instrs.getD (size + 2 + t) PathInstr.close =
        PathInstr.curve
          (roundPoint ((X.getD (size - t) 0 + X.getD (size - 1 - t) 0) / 2))
          (YNext.getD (size - t) 0)
          (roundPoint ((X.getD (size - t) 0 + X.getD (size - 1 - t) 0) / 2))
          (YNext.getD (size - 1 - t) 0)
          (X.getD (size - 1 - t) 0) (YNext.getD (size - 1 - t) 0) ∧
        X.getD (size - 1 - t) 0 <
          roundPoint ((X.getD (size - t) 0 + X.getD (size - 1 - t) 0) / 2) ∧
        roundPoint ((X.getD (size - t) 0 + X.getD (size - 1 - t) 0) / 2) <
          X.getD (size - t) 0) := by
  have hXlen : g.mainAxisPoints.length = g.values.dataSize + 1 :=
    length_mainAxisPoints g
  have hpath : g.createPath index =
      createPathFrom g.mainAxisPoints (g.crossAxisPoints.getD index [])
        (g.crossAxisPoints.getD (index + 1) []) := rfl
  refine ⟨?_, ?_, ?_, ?_, ?_⟩
  · rw [hpath, length_createPathFrom, hXlen]
    omega
  · -- final forward segment, at position 1 + (size - 1)
    have h2 := createPathFrom_getD_forward g.mainAxisPoints
      (g.crossAxisPoints.getD index []) (g.crossAxisPoints.getD (index + 1) [])
      g.values.dataSize hXlen (g.values.dataSize - 1) (by omega)
    rw [show 1 + (g.values.dataSize - 1) = g.values.dataSize from by omega] at h2
    rw [hpath, h2,
      show ((g.values.dataSize - 1) + 2 == g.values.dataSize + 1) = true from
        beq_iff_eq.mpr (by omega),
      show g.values.dataSize - 1 + 1 = g.values.dataSize from by omega]
    rfl
  · -- final-index segment of the return traversal, at position size + 2
    have h3 := createPathFrom_getD_reverse g.mainAxisPoints
      (g.crossAxisPoints.getD index []) (g.crossAxisPoints.getD (index + 1) [])
      g.values.dataSize hXlen 0 (by omega)
    rw [Nat.add_zero] at h3
    rw [hpath, h3,
      show ((g.values.dataSize - 1 - 0) + 2 == g.values.dataSize + 1) = true from
        beq_iff_eq.mpr (by omega),
      Nat.sub_zero]
    rfl
  · -- interior forward segments
    intro i hi
    rw [hpath, createPathFrom_getD_forward _ _ _ _ hXlen i (by omega),
      show (i + 2 == g.values.dataSize + 1) = false from
        beq_eq_false_iff_ne.mpr (by omega)]
    have hb := roundPoint_mid_between (hgap i (by omega))
    exact ⟨rfl, hb.1, hb.2⟩
  · -- interior return segments
    intro t ht1 ht2
    rw [hpath, createPathFrom_getD_reverse _ _ _ _ hXlen t ht2,
      show ((g.values.dataSize - 1 - t) + 2 == g.values.dataSize + 1) = false from
        beq_eq_false_iff_ne.mpr (by omega),
      show g.values.dataSize - 1 - t + 1 = g.values.dataSize - t from by omega]
    have hb := roundPoint_mid_between
      (hgap (g.values.dataSize - 1 - t) (by omega))
    rw [show g.values.dataSize - 1 - t + 1 = g.values.dataSize - t from by omega]
      at hb
    rw [show (g.mainAxisPoints.getD (g.values.dataSize - 1 - t) 0 +
        g.mainAxisPoints.getD (g.values.dataSize - t) 0) / 2 =
        (g.mainAxisPoints.getD (g.values.dataSize - t) 0 +
        g.mainAxisPoints.getD (g.values.dataSize - 1 - t) 0) / 2 from by ring] at hb
    exact ⟨rfl, hb.1, hb.2⟩

/-- Witness for C5 at a concrete horizontal graph with values
`[10, 20, 30, 40]` and width 400 (main-axis points
`[0, 100, 200, 300, 400]`). -/
theorem createPath_terminal_edge_witness :
    letI g : FunnelGraph :=
      FunnelGraph.init ⟨none, none, .oneD [10, 20, 30, 40], 400, 200⟩
    letI size := g.values.dataSize
    letI X := g.mainAxisPoints
    letI Y := g.crossAxisPoints.getD 0 []
    letI YNext := g.crossAxisPoints.getD (0 + 1) []
    letI instrs := g.createPath 0
    instrs.length = 2 * size + 3 ∧
    instrs.getD size PathInstr.close =
      PathInstr.line (X.getD size 0) (Y.getD size 0) ∧
    instrs.getD (size + 2) PathInstr.close =
      PathInstr.line (X.getD (size - 1) 0) (YNext.getD (size - 1) 0) ∧
    (∀ i, i + 1 < size →
      instrs.getD (1 + i) PathInstr.close =
        PathInstr.curve (roundPoint ((X.getD i 0 + X.getD (i + 1) 0) / 2)) (Y.getD i 0)
          (roundPoint ((X.getD i 0 + X.getD (i + 1) 0) / 2)) (Y.getD (i + 1) 0)
          (X.getD (i + 1) 0) (Y.getD (i + 1) 0) ∧
        X.getD i 0 < roundPoint ((X.getD i 0 + X.getD (i + 1) 0) / 2) ∧
        roundPoint ((X.getD i 0 + X.getD (i + 1) 0) / 2) < X.getD (i + 1) 0) ∧
    (∀ t, 1 ≤ t → t < size →
      instrs.getD (size + 2 + t) PathInstr.close =
        PathInstr.curve
          (roundPoint ((X.getD (size - t) 0 + X.getD (size - 1 - t) 0) / 2))
          (YNext.getD (size - t) 0)
          (roundPoint ((X.getD (size - t) 0 + X.getD (size - 1 - t) 0) / 2))
          (YNext.getD (size - 1 - t) 0)
          (X.getD (size - 1 - t) 0) (YNext.getD (size - 1 - t) 0) ∧
        X.getD (size - 1 - t) 0 <
          roundPoint ((X.getD (size - t) 0 + X.getD (size - 1 - t) 0) / 2) ∧
        roundPoint ((X.getD (size - t) 0 + X.getD (size - 1 - t) 0) / 2) <
          X.getD (size - t) 0) :=
  createPath_terminal_edge
    (FunnelGraph.init ⟨none, none, .oneD [10, 20, 30, 40], 400, 200⟩) 0
    (by norm_num [FunnelGraph.init, Dataset.dataSize])
    (by
      have hX : (FunnelGraph.init
          ⟨none, none, .oneD [10, 20, 30, 40], 400, 200⟩).mainAxisPoints =
          [0, 100, 200, 300, 400] := by
        norm_num [FunnelGraph.mainAxisPoints, FunnelGraph.isVertical,
          FunnelGraph.init, constructorDirection, Dataset.dataSize,
          getMainAxisPoints, roundPoint, List.range_succ,
          (by decide : (("horizontal":String) = "vertical") = False)]
      rw [hX]
      have hsz : (FunnelGraph.init
          ⟨none, none, .oneD [10, 20, 30, 40], 400, 200⟩).values.dataSize = 4 := rfl
      rw [hsz]
      intro i hi
      interval_cases i <;> norm_num)

end FunnelJS
